import Mathlib

/-!
Verification development for the fill-rate archival repository
(`src/scripts/archive-fillrate.js` and `src/generate.mjs`).

The JavaScript code is shallowly embedded: JS numbers are modelled as
rationals extended with `NaN` and the two infinities (`JSNum`), JS objects
as insertion-ordered association lists (`JSObj`), file-system and network
effects as explicit state passing over oracle environments.  Library
behaviour the code relies on (`Number(x)` coercion, `Date` parsing of ISO
strings, `Object.entries` key ordering, `localeCompare` with the is locale)
is modelled by executable Lean functions whose doc comments state the
modelling restrictions.
-/

set_option autoImplicit false

namespace FillRate

/-- Model of a JavaScript number: IEEE-754 doubles are abstracted as exact
rationals, keeping the special values `NaN`, `+Infinity`, `-Infinity`. -/
inductive JSNum where
  | nan
  | posInf
  | negInf
  | finite (q : ℚ)
  deriving DecidableEq, Repr

/-- `Number.isNaN v` for an already-numeric `v`. -/
def jsIsNaN : JSNum → Bool
  | .nan => true
  | _ => false

/-- `Number.isFinite v` for an already-numeric `v`. -/
def jsIsFinite : JSNum → Bool
  | .finite _ => true
  | _ => false

/-- JS `+` on numbers: `NaN` is absorbing, opposite infinities give `NaN`. -/
def jsAdd : JSNum → JSNum → JSNum
  | .nan, _ => .nan
  | _, .nan => .nan
  | .posInf, .negInf => .nan
  | .negInf, .posInf => .nan
  | .posInf, _ => .posInf
  | _, .posInf => .posInf
  | .negInf, _ => .negInf
  | _, .negInf => .negInf
  | .finite a, .finite b => .finite (a + b)

/-- `Math.max` on two numbers: `NaN` if either argument is `NaN`.
(The `-0`/`+0` distinction of doubles is below this model.) -/
def jsMax : JSNum → JSNum → JSNum
  | .nan, _ => .nan
  | _, .nan => .nan
  | .posInf, _ => .posInf
  | _, .posInf => .posInf
  | .negInf, b => b
  | a, .negInf => a
  | .finite a, .finite b => .finite (max a b)

/-- `Math.min` on two numbers: `NaN` if either argument is `NaN`. -/
def jsMin : JSNum → JSNum → JSNum
  | .nan, _ => .nan
  | _, .nan => .nan
  | .negInf, _ => .negInf
  | _, .negInf => .negInf
  | .posInf, b => b
  | a, .posInf => a
  | .finite a, .finite b => .finite (min a b)

/-- A JS value as it can appear in a parsed-JSON field (plus `undefined`
for a missing field). -/
inductive JSValue where
  | undef
  | nullv
  | boolv (b : Bool)
  | num (n : JSNum)
  | str (s : String)
  deriving DecidableEq, Repr

/-- Whitespace trimming on a character list (`String.prototype.trim`). -/
def trimList (l : List Char) : List Char :=
  ((l.dropWhile Char.isWhitespace).reverse.dropWhile Char.isWhitespace).reverse

/-- `s.trim()` (structural implementation, so closed computations reduce). -/
def jsTrim (s : String) : String :=
  String.mk (trimList s.data)

/-- Split a character list on a separator character; always returns at
least one (possibly empty) group — `"a,b".split(",")` semantics. -/
def splitChar (sep : Char) : List Char → List (List Char)
  | [] => [[]]
  | c :: rest =>
      match splitChar sep rest with
      | [] => [[]]
      | g :: gs => if c = sep then [] :: g :: gs else (c :: g) :: gs

/-- Is the list made of decimal digits only (true for the empty list)? -/
def allDigitsL (l : List Char) : Bool :=
  l.all (·.isDigit)

/-- Numeric value of a digit list (0 for the empty list). -/
def digitsValL (l : List Char) : ℕ :=
  l.foldl (fun acc c => acc * 10 + (c.toNat - 48)) 0

/-- Parse an unsigned decimal literal (`123`, `123.`, `.5`, `12.75`) into a
rational.  One optional decimal point, digits on at least one side. -/
def parseDecimal (l : List Char) : Option ℚ :=
  match splitChar '.' l with
  | [i] =>
      if i ≠ [] ∧ allDigitsL i then some (digitsValL i) else none
  | [i, f] =>
      if (i ≠ [] ∨ f ≠ []) ∧ allDigitsL i ∧ allDigitsL f then
        some ((digitsValL i : ℚ) + (digitsValL f : ℚ) / (10 : ℚ) ^ f.length)
      else none
  | _ => none

/-- Model of the ECMAScript string-to-number coercion `Number(s)` for a
string: trim, empty string is `0`, optional sign, `Infinity`, or a plain
decimal literal; anything else is `NaN`.  (Exponent notation and hex/octal/
binary literals are outside the model; no claim depends on them.) -/
def jsStringToNumber (s : String) : JSNum :=
  let t := trimList s.data
  if t = [] then .finite 0
  else
    let signAndRest : Bool × List Char :=
      match t with
      | '-' :: r => (true, r)
      | '+' :: r => (false, r)
      | r => (false, r)
    let neg := signAndRest.1
    let rest := signAndRest.2
    if rest = "Infinity".data then (if neg then .negInf else .posInf)
    else
      match parseDecimal rest with
      | some q => .finite (if neg then -q else q)
      | none => .nan

/-- The ECMAScript `Number(v)` coercion on our value model. -/
def jsToNumber : JSValue → JSNum
  | .undef => .nan
  | .nullv => .finite 0
  | .boolv b => .finite (if b then 1 else 0)
  | .num n => n
  | .str s => jsStringToNumber s

/-- Numeric truthiness: `NaN` and `0` are falsy. -/
def jsNumTruthy : JSNum → Bool
  | .nan => false
  | .finite q => q ≠ 0
  | _ => true

/-- `n || 0` applied to an already-numeric `n` (as in
`Number(b.fill_pressure) || 0`). -/
def jsOrZero (n : JSNum) : JSNum :=
  if jsNumTruthy n then n else .finite 0

/-! ## JavaScript objects as insertion-ordered association lists -/

/-- A JS plain object with string keys: an association list in property
creation order (assigning to an existing key keeps its position). -/
abbrev JSObj (V : Type) : Type := List (String × V)

def objEmpty {V : Type} : JSObj V := []

/-- Property read `o[k]`. -/
def objGet {V : Type} (o : JSObj V) (k : String) : Option V :=
  match o with
  | [] => none
  | (k', v) :: rest => if k' = k then some v else objGet rest k

/-- Property write `o[k] = v`: update in place when the key exists,
otherwise append (JS property creation order). -/
def objSet {V : Type} (o : JSObj V) (k : String) (v : V) : JSObj V :=
  match o with
  | [] => [(k, v)]
  | (k', v') :: rest =>
      if k' = k then (k', v) :: rest else (k', v') :: objSet rest k v

/-- Is `s` the canonical string of an array index (`0` … `4294967294`):
all digits, no leading zero (except `"0"` itself), value below
`2^32 - 1`?  Such keys are enumerated first, in ascending numeric order,
by `Object.keys` / `Object.entries`. -/
def isArrayIndex (s : String) : Bool :=
  match s.data with
  | [] => false
  | c :: rest =>
      allDigitsL (c :: rest) && (rest.isEmpty || c ≠ '0') &&
        digitsValL s.data < 4294967295

/-- Ascending order on canonical array-index keys. -/
def arrayIndexLE (a b : String) : Bool :=
  digitsValL a.data ≤ digitsValL b.data

/-- `Object.keys o`: array-index keys first in ascending numeric order,
then the remaining string keys in property creation order
(ECMAScript OrdinaryOwnPropertyKeys). -/
def objKeys {V : Type} (o : JSObj V) : List String :=
  let ks := o.map (·.1)
  (ks.filter isArrayIndex).insertionSort (fun a b => arrayIndexLE a b)
    ++ ks.filter (fun k => !(isArrayIndex k))

/-- `Object.entries o`, in the `objKeys` order. -/
def objEntries {V : Type} (o : JSObj V) : List (String × V) :=
  (objKeys o).filterMap (fun k => (objGet o k).map ((k, ·)))

/-! ## Normalizer (`normalize` in `src/scripts/archive-fillrate.js`) -/

def isLeapYear (y : ℕ) : Bool :=
  (y % 4 = 0 && y % 100 ≠ 0) || y % 400 = 0

def daysInMonth (y m : ℕ) : ℕ :=
  if m = 2 then (if isLeapYear y then 29 else 28)
  else if m = 4 ∨ m = 6 ∨ m = 9 ∨ m = 11 then 30 else 31

/-- Model of the composite `new Date(day.date)` / `Number.isNaN(+d)` /
`d.toISOString().slice(0,10)` on ISO `YYYY-MM-DD` input strings: a valid
calendar date is parsed as UTC midnight, so the ISO slice returns the
input unchanged; an out-of-range or malformed string is an Invalid Date.
(Non-ISO date formats, which V8 may parse in local time, are outside the
model; no claim depends on them.) -/
def parseDateISO (s : String) : Option String :=
  match splitChar '-' s.data with
  | [y, m, d] =>
      if y.length = 4 ∧ m.length = 2 ∧ d.length = 2 ∧
          allDigitsL y ∧ allDigitsL m ∧ allDigitsL d ∧
          1 ≤ digitsValL m ∧ digitsValL m ≤ 12 ∧
          1 ≤ digitsValL d ∧
          digitsValL d ≤ daysInMonth (digitsValL y) (digitsValL m)
      then some s else none
  | _ => none

/-- A row of a day-record in the raw feed.  The identifier field is
modelled as an optional string (the feed contract supplies string
identifiers; a missing/undefined/null field is `none`), so
`String(rec?.du_name ?? "")` is `(du_name.getD "")`.  The value field
keeps the full JS value model, since `Number(rec?.fill_rate)` coercion
matters. -/
structure RawRow where
  du_name : Option String
  fill_rate : JSValue
  deriving DecidableEq, Repr

/-- A day-record: `rows` is `none` when the field is absent/null (then
`day.rows || []` yields `[]`). -/
structure RawDay where
  date : String
  rows : Option (List RawRow)
  deriving DecidableEq, Repr

structure RawFeed where
  result : List RawDay
  generated_at : Option String
  deriving DecidableEq, Repr

/-- The parsed JSON handed to `normalize`: either a value failing the
`!raw || !Array.isArray(raw.result)` shape check, or a well-shaped feed. -/
inductive RawInput where
  | badShape
  | wellFormed (feed : RawFeed)
  deriving DecidableEq, Repr

/-- The Canonical Snapshot Set: the value returned by `normalize`. -/
structure Canon where
  dates : List String
  screens : List String
  map : JSObj (JSObj JSNum)
  source_generated_at : Option String
  deriving DecidableEq, Repr

/-- `String(rec?.du_name ?? "").trim()`. -/
def rowName (rec : RawRow) : String :=
  jsTrim (rec.du_name.getD "")

/-- `map[name] ||= \x7b\x7d; map[name][iso] = v`. -/
def mapSet (m : JSObj (JSObj JSNum)) (name iso : String) (v : JSNum) :
    JSObj (JSObj JSNum) :=
  objSet m name (objSet ((objGet m name).getD objEmpty) iso v)

/-- The body of the inner `for (const rec of (day.rows || []))` loop. -/
def processRow (st : Canon) (iso : String) (rec : RawRow) : Canon :=
  let name := rowName rec
  if name = "" then st
  else
    let st1 :=
      if st.screens.contains name then st
      else { st with screens := st.screens ++ [name] }
    let v := jsToNumber rec.fill_rate
    if jsIsNaN v then st1
    else { st1 with map := mapSet st1.map name iso v }

/-- The body of the outer `for (const day of raw.result)` loop: an
unparsable date skips the whole day-record. -/
def processDay (st : Canon) (day : RawDay) : Canon :=
  match parseDateISO day.date with
  | none => st
  | some iso =>
      (day.rows.getD []).foldl (fun s rec => processRow s iso rec)
        { st with dates := st.dates ++ [iso] }

/-- `normalize` on a feed that passed the shape check. -/
def normalizeFeed (feed : RawFeed) : Canon :=
  feed.result.foldl processDay
    { dates := [], screens := [], map := objEmpty,
      source_generated_at := feed.generated_at }

/-- `normalize(raw)`: throws on a bad shape, otherwise folds over the
day-records. -/
def normalize (raw : RawInput) : Except String Canon :=
  match raw with
  | .badShape => .error "Unsupported JSON shape, expected \x7bresult:[...]\x7d"
  | .wellFormed feed => .ok (normalizeFeed feed)

/-- Value stored for a `(screen, date)` pair in `map`. -/
def mapGet (m : JSObj (JSObj JSNum)) (name iso : String) : Option JSNum :=
  (objGet m name).bind (fun inner => objGet inner iso)

/-! ## Snapshot Extractor (`snapshotForDate`) -/

/-- `snapshotForDate(norm, iso)`: keep only the target date's value for
each screen, iterating `norm.screens` in canonical order.  The
`typeof v === "number"` guard always passes when the lookup succeeds,
because `map` only ever stores numbers. -/
def snapshotForDate (norm : Canon) (iso : String) : JSObj JSNum :=
  norm.screens.foldl
    (fun out s =>
      match mapGet norm.map s iso with
      | some v => objSet out s v
      | none => out)
    objEmpty

/-! ## Icelandic collation model and the CSV writer (`toCSVRows`) -/

/-- Boolean lexicographic order on lists of naturals. -/
def lexLe : List ℕ → List ℕ → Bool
  | [], _ => true
  | _ :: _, [] => false
  | a :: as, b :: bs =>
      if a < b then true else if b < a then false else lexLe as bs

/-- The Icelandic alphabet in collation order. -/
def icelandicAlphabet : List Char :=
  ['a', 'á', 'b', 'c', 'd', 'ð', 'e', 'é', 'f', 'g', 'h', 'i', 'í', 'j',
   'k', 'l', 'm', 'n', 'o', 'ó', 'p', 'q', 'r', 's', 't', 'u', 'ú', 'v',
   'w', 'x', 'y', 'ý', 'z', 'þ', 'æ', 'ö']

/-- Lower-casing that also covers the Icelandic capitals. -/
def icelandicLower (c : Char) : Char :=
  if 'A' ≤ c ∧ c ≤ 'Z' then Char.ofNat (c.toNat + 32)
  else if c = 'Á' then 'á' else if c = 'Ð' then 'ð'
  else if c = 'É' then 'é' else if c = 'Í' then 'í'
  else if c = 'Ó' then 'ó' else if c = 'Ú' then 'ú'
  else if c = 'Ý' then 'ý' else if c = 'Þ' then 'þ'
  else if c = 'Æ' then 'æ' else if c = 'Ö' then 'ö'
  else c

/-- Collation key of one character: digits sort before letters, letters by
their Icelandic alphabet rank (case as a tiebreak), anything else after, by
code point. -/
def charKey (c : Char) : ℕ :=
  if c.isDigit then c.toNat
  else
    let lc := icelandicLower c
    let i := icelandicAlphabet.indexOf lc
    if i < icelandicAlphabet.length then
      16777216 + i * 2 + (if c = lc then 0 else 1)
    else 2 * 16777216 + c.toNat

def strKey (s : String) : List ℕ :=
  s.data.map charKey

/-- Model of the comparator `(a, b) => a.localeCompare(b, "is")` as a total
preorder: primary-strength Icelandic alphabet ordering with digits first
(the full ICU tailoring is outside the model; the claims only compare
strings that differ at this primary level). -/
def icelandicLE (a b : String) : Prop :=
  lexLe (strKey a) (strKey b) = true

instance : DecidableRel icelandicLE := fun a b =>
  inferInstanceAs (Decidable (lexLe (strKey a) (strKey b) = true))

/-- `Object.keys(obj).sort((a,b)=>a.localeCompare(b,"is"))`; the JS sort is
stable and modelled by insertion sort. -/
def csvSortedScreens (obj : JSObj JSNum) : List String :=
  (objKeys obj).insertionSort icelandicLE

def digitChar (n : ℕ) : Char :=
  Char.ofNat (48 + n)

/-- Decimal digits of the fraction `r / d` (`r < d`), up to a fuel bound. -/
def fracDigits : ℕ → ℕ → ℕ → List Char
  | 0, _, _ => []
  | _ + 1, 0, _ => []
  | fuel + 1, r + 1, d =>
      digitChar ((r + 1) * 10 / d) :: fracDigits fuel ((r + 1) * 10 % d) d

/-- Decimal rendering of a rational.  Exact for terminating decimals (the
values stored by this pipeline); non-terminating expansions are cut at 40
digits (JS would print a 17-digit shortest round-trip form — below the
resolution of the rational model either way). -/
def ratToDecimalString (q : ℚ) : String :=
  let sign := if q < 0 then "-" else ""
  let p := |q|
  let n := p.num.toNat
  let i := n / p.den
  let r := n % p.den
  if r = 0 then sign ++ toString i
  else sign ++ toString i ++ "." ++ String.mk (fracDigits 40 r p.den)

/-- Model of JS `String(v)` on a number. -/
def jsNumToString : JSNum → String
  | .nan => "NaN"
  | .posInf => "Infinity"
  | .negInf => "-Infinity"
  | .finite q => ratToDecimalString q

/-- The basic CSV escaping of `toCSVRows`: quote a field containing a
comma, a double-quote or a newline, doubling embedded double-quotes. -/
def csvEscape (f : String) : String :=
  if f.data.any (fun c => c = ',' ∨ c = '"' ∨ c = '\n') then
    "\"" ++ f.replace "\"" "\"\"" ++ "\""
  else f

/-- `toCSVRows(iso, obj)`: header row, then one row per screen in the
Icelandic-collated order. -/
def toCSVRows (iso : String) (obj : JSObj JSNum) : String :=
  let rows :=
    [["date", "screen", "fill_rate"]] ++
      (csvSortedScreens obj).map
        (fun s => [iso, s, jsNumToString ((objGet obj s).getD .nan)])
  String.intercalate "\n" (rows.map (fun r => String.intercalate "," (r.map csvEscape)))

/-! ## Source Client (`getJSON`) -/

/-- Oracle outcome of one candidate fetch: a transport error, or a
response with its status and the result of parsing its body
(`resp.json()` may itself throw). -/
inductive FetchOutcome where
  | transportError (msg : String)
  | response (status : ℕ) (body : Except String RawInput)
  deriving Repr

/-- One iteration of the `getJSON` loop: `resp.ok` is status 200–299; a
non-ok status throws `HTTP <status>`; an ok response returns the parsed
body (whose parsing may fail with its own message). -/
def attemptResult : FetchOutcome → Except String RawInput
  | .transportError m => .error m
  | .response status body =>
      if 200 ≤ status ∧ status ≤ 299 then body
      else .error ("HTTP " ++ toString status)

/-- The message pushed onto `errs` for a failed candidate. -/
def attemptErrMsg (u : String) (o : FetchOutcome) : String :=
  u ++ ": " ++ (match attemptResult o with | .error m => m | .ok _ => "")

def getJSONGo : List (String × FetchOutcome) → List String → Except String RawInput
  | [], errs => .error ("All sources failed: " ++ String.intercalate " | " errs)
  | (u, o) :: rest, errs =>
      match attemptResult o with
      | .ok b => .ok b
      | .error m => getJSONGo rest (errs ++ [u ++ ": " ++ m])

/-- `getJSON(urlList)`: each candidate is paired with its oracle fetch
outcome; the cache-busting `?_=` query string does not change which
candidate is attempted. -/
def getJSON (urlList : List (String × FetchOutcome)) : Except String RawInput :=
  getJSONGo urlList []

/-! ## Archive Writer (`main` in `src/scripts/archive-fillrate.js`) -/

def pad2 (n : ℕ) : String :=
  if n < 10 then "0" ++ toString n else toString n

/-- The UTC calendar date the run derives from `new Date()`:
`yyyy = getUTCFullYear()`, `mm = getUTCMonth() + 1`, `dd = getUTCDate()`. -/
structure RunDate where
  yyyy : ℕ
  mm : ℕ
  dd : ℕ
  deriving DecidableEq, Repr

def dateISOOf (t : RunDate) : String :=
  toString t.yyyy ++ "-" ++ pad2 t.mm ++ "-" ++ pad2 t.dd

def outDirOf (t : RunDate) : String :=
  "logs/" ++ toString t.yyyy ++ "/" ++ pad2 t.mm

def outJsonPath (t : RunDate) : String :=
  outDirOf t ++ "/" ++ dateISOOf t ++ ".json"

def outCsvPath (t : RunDate) : String :=
  outDirOf t ++ "/" ++ dateISOOf t ++ ".csv"

/-- The JSON snapshot record (`payload` in `main`).  `JSON.stringify` is
deterministic, so byte-identity of the written artifact corresponds to
equality of this structure. -/
structure Payload where
  date : String
  generated_at : Option String
  count : ℕ
  rows : List (String × JSNum)
  meta_note : String
  meta_source_urls : List String
  meta_archived_at_utc : String
  deriving DecidableEq, Repr

def mkPayload (dISO : String) (norm : Canon) (dataToday : JSObj JSNum)
    (srcUrls : List String) (archivedAt : String) : Payload :=
  { date := dISO
    generated_at := norm.source_generated_at
    count := (objKeys dataToday).length
    rows := objEntries dataToday
    meta_note := "Values are 0..1 fill rates; >=0.934 considered \x27sold out\x27 by UI."
    meta_source_urls := srcUrls
    meta_archived_at_utc := archivedAt }

/-- Content of an on-disk artifact. -/
inductive FileData where
  | jsonData (p : Payload)
  | textData (s : String)
  deriving DecidableEq, Repr

/-- The file system: a map from path to content.  A `writeFileSync` either
fully succeeds or fails leaving the state unchanged (the spec's stated
write model). -/
abbrev FS : Type := JSObj FileData

/-- Oracle environment of one archiver run: the per-candidate fetch
outcomes for the configured source URLs, whether each file-system
operation fails, and the run's wall-clock timestamp. -/
structure MainEnv where
  fetches : List (String × FetchOutcome)
  mkdirFails : Bool
  jsonWriteFails : Bool
  csvWriteFails : Bool
  archivedAt : String

/-- `main()`: the idempotence check, then Fetch → Normalize → Extract →
mkdir → write JSON → write CSV, each failure aborting the run with the
file system as mutated so far. -/
def mainRun (env : MainEnv) (t : RunDate) (fs : FS) : Except String Unit × FS :=
  let dISO := dateISOOf t
  if (objGet fs (outJsonPath t)).isSome then (.ok (), fs)
  else
    match getJSON env.fetches with
    | .error e => (.error e, fs)
    | .ok raw =>
        match normalize raw with
        | .error e => (.error e, fs)
        | .ok norm =>
            let dataToday := snapshotForDate norm dISO
            if env.mkdirFails then (.error "mkdir failed", fs)
            else if env.jsonWriteFails then (.error "JSON write failed", fs)
            else
              let payload :=
                mkPayload dISO norm dataToday (env.fetches.map (·.1)) env.archivedAt
              let fs1 := objSet fs (outJsonPath t) (.jsonData payload)
              if env.csvWriteFails then (.error "CSV write failed", fs1)
              else
                (.ok (), objSet fs1 (outCsvPath t)
                  (.textData (toCSVRows dISO dataToday ++ "\n")))

/-- `main().catch(err => \x7b ...; process.exit(1) \x7d)`: a rejected run
exits with status 1, a completed one with status 0. -/
def exitCode (r : Except String Unit) : ℕ :=
  match r with
  | .ok _ => 0
  | .error _ => 1

/-! ## Generator (`src/generate.mjs`): vendor session client and
per-screen fetch loop -/

/-- An entry of `proposal_items` in a vendor reporting response. -/
structure Item where
  fill_pressure : JSValue
  deriving DecidableEq, Repr

/-- A parsed vendor response body.  Each field is `some items` when the
corresponding property is an array (`Array.isArray`), `none` otherwise. -/
structure ApiResp where
  data_proposal_items : Option (List Item)
  proposal_items : Option (List Item)
  deriving DecidableEq, Repr

/-- `extractItems(resp)`: prefer `resp.data.proposal_items`, then
`resp.proposal_items`, else the empty list. -/
def extractItems (resp : ApiResp) : List Item :=
  match resp.data_proposal_items with
  | some l => l
  | none =>
      match resp.proposal_items with
      | some l => l
      | none => []

/-- `items.reduce((a, b) => a + (Number(b.fill_pressure) || 0), 0)`. -/
def sumFillPressure (items : List Item) : JSNum :=
  items.foldl (fun a b => jsAdd a (jsOrZero (jsToNumber b.fill_pressure))) (.finite 0)

/-- `Math.min(1, Math.max(0, x))`. -/
def clamp01 (x : JSNum) : JSNum :=
  jsMin (.finite 1) (jsMax (.finite 0) x)

/-- Oracle outcome of one `fetch` issued by `direct`: a transport error,
or a response with its status and body-parse result. -/
inductive VendorFetch where
  | transportError (msg : String)
  | response (status : ℕ) (body : Except String ApiResp)
  deriving Repr

/-- Oracle environment of the vendor session: the `n`-th data fetch and
the `n`-th login attempt (a login yields a session cookie or fails). -/
structure VendorWorld where
  fetchEv : ℕ → VendorFetch
  loginEv : ℕ → Except String String

/-- Mutable state threaded through the generator: the module-level
`sessionCookie` plus counters of how many fetches/logins happened. -/
structure VSt where
  cookie : Option String
  nFetch : ℕ
  nLogin : ℕ
  deriving DecidableEq, Repr

/-- `login()`: consume the next login outcome; on success store the
session cookie, on failure throw. -/
def loginW (w : VendorWorld) (st : VSt) : Except String Unit × VSt :=
  let st1 := { st with nLogin := st.nLogin + 1 }
  match w.loginEv st.nLogin with
  | .ok c => (.ok (), { st1 with cookie := some c })
  | .error m => (.error m, st1)

/-- `direct(path, options, retried)`, with the `retried` flag modelled as
the remaining retry budget (`1` for `retried = false`, `0` for
`retried = true`): login if no cookie, fetch, and on a 401 with budget
left clear the cookie, re-login and retry; any other response has its
body parsed and returned by `res.json()`. -/
def directGo (w : VendorWorld) : ℕ → VSt → Except String ApiResp × VSt
  | budget, st0 =>
      let pre : Except String Unit × VSt :=
        match st0.cookie with
        | none => loginW w st0
        | some _ => (.ok (), st0)
      match pre with
      | (.error m, st) => (.error m, st)
      | (.ok _, st) =>
          let ev := w.fetchEv st.nFetch
          let st := { st with nFetch := st.nFetch + 1 }
          match ev with
          | .transportError m => (.error m, st)
          | .response status body =>
              match budget with
              | b + 1 =>
                  if status = 401 then
                    match loginW w { st with cookie := none } with
                    | (.error m, st') => (.error m, st')
                    | (.ok _, st') => directGo w b st'
                  else (body, st)
              | 0 => (body, st)

/-- `direct(path, options)` as called by `getFillForScreen`
(`retried = false`). -/
def direct (w : VendorWorld) (st : VSt) : Except String ApiResp × VSt :=
  directGo w 1 st

/-- Result of `getFillForScreen`. -/
structure FillResult where
  screenId : ℕ
  fill : JSNum
  count : ℕ
  deriving DecidableEq, Repr

/-- `getFillForScreen(screenId, date)`: one `direct` call, then the
clamped sum of the items' `fill_pressure` values. -/
def getFillForScreen (w : VendorWorld) (st : VSt) (screenId : ℕ) :
    Except String FillResult × VSt :=
  match direct w st with
  | (.error m, st') => (.error m, st')
  | (.ok resp, st') =>
      let items := extractItems resp
      (.ok { screenId := screenId
             fill := clamp01 (sumFillPressure items)
             count := items.length }, st')

/-- A configured screen (`screens` array in `generate.mjs`). -/
structure ScreenCfg where
  id : ℕ
  name : String
  deriving DecidableEq, Repr

/-- A row of a day-record in the forecast output: `rows_seen` on success,
`error` on a caught failure. -/
structure OutRow where
  id : ℕ
  du_name : String
  fill_rate : JSNum
  rows_seen : Option ℕ
  error : Option String
  deriving DecidableEq, Repr

/-- The `try`/`catch` body of the inner screen loop of `main()`. -/
def rowForScreen (w : VendorWorld) (st : VSt) (s : ScreenCfg) : OutRow × VSt :=
  match getFillForScreen w st s.id with
  | (.ok r, st') =>
      ({ id := s.id, du_name := s.name, fill_rate := r.fill,
         rows_seen := some r.count, error := none }, st')
  | (.error m, st') =>
      ({ id := s.id, du_name := s.name, fill_rate := .finite 0,
         rows_seen := none, error := some m }, st')

/-- One day-record of the forecast output: the inner
`for (const s of screens)` loop. -/
def runDayRows (w : VendorWorld) : List ScreenCfg → VSt → List OutRow × VSt
  | [], st => ([], st)
  | s :: rest, st =>
      let (row, st') := rowForScreen w st s
      let (rows, st'') := runDayRows w rest st'
      (row :: rows, st'')

/-! ## Spec-side definitions used to state the ordering claims -/

/-- Spec-side: one step of first-seen accumulation of a name. -/
def firstSeenStep (acc : List String) (n : String) : List String :=
  if acc.contains n then acc else acc ++ [n]

/-- Spec-side (§3/§8 of the spec): the distinct names of a name sequence,
in first-seen order. -/
def firstSeen (l : List String) : List String :=
  l.foldl firstSeenStep []

/-- The trimmed non-empty screen names contributed by one day-record
(none when its date is unparsable). -/
def dayNames (day : RawDay) : List String :=
  match parseDateISO day.date with
  | none => []
  | some _ => ((day.rows.getD []).map rowName).filter (fun n => ¬ n = "")

/-- All screen names of the feed, in traversal order across day-records. -/
def feedNames (feed : RawFeed) : List String :=
  (feed.result.map dayNames).flatten

/-- `n` is a finite number in the closed interval `[0, 1]`. -/
def inUnit (n : JSNum) : Prop :=
  ∃ q : ℚ, n = .finite q ∧ 0 ≤ q ∧ q ≤ 1

/-- A feed with a single row whose value string coerces to `Infinity`
(`Number("Infinity")` is not `NaN`, so the row passes the retention
check even though its value is not finite). -/
def infinityFeed : RawFeed :=
  { result := [{ date := "2024-03-01",
                 rows := some [{ du_name := some "A",
                                 fill_rate := .str "Infinity" }] }],
    generated_at := none }

/-- The empty Canonical Snapshot Set (loop state before the first row). -/
def emptyCanon : Canon :=
  { dates := [], screens := [], map := objEmpty, source_generated_at := none }

/-- A raw row whose value does not coerce to a number. -/
def badValueRow : RawRow :=
  { du_name := some "B", fill_rate := .str "bad" }

/-- Did this candidate's attempt fail (transport error, non-2xx status,
or unparsable body)? -/
def attemptFailed (o : FetchOutcome) : Bool :=
  match attemptResult o with
  | .ok _ => false
  | .error _ => true

/-- The spec §8 fallback example: candidate X answers HTTP 500, candidate
Y a valid body. -/
def feedY : RawFeed := { result := [], generated_at := some "g" }

/-! ## Concrete inputs used by counterexamples and witnesses -/

/-- A first-run environment: one candidate source answering an empty
well-formed feed, no file-system failures. -/
def c2Env : MainEnv :=
  { fetches := [("u", .response 200 (.ok (.wellFormed feedY)))],
    mkdirFails := false, jsonWriteFails := false, csvWriteFails := false,
    archivedAt := "2024-03-01T23:59:00.000Z" }

/-- A second-run environment whose fetch would fail — it must not matter. -/
def c2Env2 : MainEnv :=
  { fetches := [("u", .transportError "down")],
    mkdirFails := false, jsonWriteFails := false, csvWriteFails := true,
    archivedAt := "2024-03-02T00:10:00.000Z" }

def c2Date : RunDate := { yyyy := 2024, mm := 3, dd := 1 }

/-- An environment whose CSV write fails after a successful JSON write. -/
def c3Env : MainEnv :=
  { fetches := [("u", .response 200 (.ok (.wellFormed feedY)))],
    mkdirFails := false, jsonWriteFails := false, csvWriteFails := true,
    archivedAt := "ts" }

/-- A feed that mentions only a date other than the target. -/
def staleFeed : RawFeed :=
  { result := [{ date := "2024-02-29",
                 rows := some [{ du_name := some "A",
                                 fill_rate := .num (.finite 1) }] }],
    generated_at := some "2024-02-29T21:00:00Z" }

def c10Env : MainEnv :=
  { fetches := [("u", .response 200 (.ok (.wellFormed staleFeed)))],
    mkdirFails := false, jsonWriteFails := false, csvWriteFails := false,
    archivedAt := "ts" }

/-- A session world answering every data request with HTTP 401 and a
parseable JSON body, and every login with a fresh cookie. -/
def always401 : VendorWorld :=
  { fetchEv := fun _ =>
      .response 401 (.ok { data_proposal_items := none, proposal_items := none }),
    loginEv := fun n => .ok ("session=r" ++ toString n) }

/-- A world whose first answer is a 401 and whose second is a 500 with a
parseable body. -/
def c4World : VendorWorld :=
  { fetchEv := fun n =>
      if n = 0 then .response 401 (.error "unauthorized html")
      else .response 500 (.ok { data_proposal_items := none, proposal_items := none }),
    loginEv := fun _ => .ok "session=t1" }

/-- A vendor response whose items coerce to `+Infinity` and `-Infinity`. -/
def infResp : ApiResp :=
  { data_proposal_items := some [{ fill_pressure := .str "Infinity" },
                                 { fill_pressure := .str "-Infinity" }],
    proposal_items := none }

/-- A world where every data request succeeds with `infResp`. -/
def c9World : VendorWorld :=
  { fetchEv := fun _ => .response 200 (.ok infResp),
    loginEv := fun _ => .ok "session=z" }

/-- A response with one item of fill pressure one. -/
def c9OkResp : ApiResp :=
  { data_proposal_items := none,
    proposal_items := some [{ fill_pressure := .num (.finite 1) }] }

/-- A world whose first fetch fails in transport and whose later fetches
succeed with `c9OkResp`. -/
def c9MixedWorld : VendorWorld :=
  { fetchEv := fun n =>
      if n = 0 then .transportError "socket hang up"
      else .response 200 (.ok c9OkResp),
    loginEv := fun _ => .ok "session=m" }

def c9Start : VSt := { cookie := some "session=m", nFetch := 0, nLogin := 0 }

def c9Screens : List ScreenCfg := [{ id := 7, name := "A" }, { id := 8, name := "B" }]

/-- The row the caught transport error produces for screen 7. -/
def c9FirstRow : OutRow :=
  { id := 7, du_name := "A", fill_rate := .finite 0, rows_seen := none,
    error := some "socket hang up" }

/-- The §8 example snapshot: screens first-seen in order Zeta, Alpha,
Miðbær with the spec's values. -/
def exampleSnap : JSObj JSNum :=
  [("Zeta", .finite (1/2)), ("Alpha", .finite (1/5)), ("Miðbær", .finite (9/10))]

/-- A feed whose screens are first seen as Zeta, Alpha, Miðbær. -/
def c7feedOk : RawFeed :=
  { result := [{ date := "2024-03-01",
                 rows := some [{ du_name := some "Zeta",
                                 fill_rate := .num (.finite (1/2)) },
                               { du_name := some "Alpha",
                                 fill_rate := .num (.finite (1/5)) },
                               { du_name := some "Miðbær",
                                 fill_rate := .num (.finite (9/10)) }] }],
    generated_at := none }

/-- A feed whose second screen name is the integer-like string `"7"`. -/
def c7feedIdx : RawFeed :=
  { result := [{ date := "2024-03-01",
                 rows := some [{ du_name := some "Alpha",
                                 fill_rate := .num (.finite 1) },
                               { du_name := some "7",
                                 fill_rate := .num (.finite 0) }] }],
    generated_at := none }

/-! ## Theorems -/

theorem objGet_objSet_same {V : Type} (o : JSObj V) (k : String) (v : V) :
    objGet (objSet o k v) k = some v := by
  induction o with
  | nil => simp [objSet, objGet]
  | cons p rest ih =>
      by_cases h : p.1 = k
      · simp [objSet, objGet, h]
      · simp [objSet, objGet, h, ih]

theorem objGet_objSet_other {V : Type} (o : JSObj V) (k k' : String) (v : V)
    (h : k ≠ k') : objGet (objSet o k v) k' = objGet o k' := by
  induction o with
  | nil => simp [objSet, objGet, h]
  | cons p rest ih =>
      by_cases hp : p.1 = k
      · subst hp
        simp [objSet, objGet, h, ih]
      · simp [objSet, objGet, hp, ih]

theorem objSet_keys {V : Type} (o : JSObj V) (k : String) (v : V) :
    (objSet o k v).map (·.1) =
      if (objGet o k).isSome then o.map (·.1) else o.map (·.1) ++ [k] := by
  induction o with
  | nil => simp [objSet, objGet]
  | cons p rest ih =>
      by_cases hp : p.1 = k
      · simp [objSet, objGet, hp]
      · simp only [objSet, objGet, hp, if_false, List.map_cons, ih]
        by_cases hs : (objGet rest k).isSome <;> simp [hs]

theorem lexLe_total (x y : List ℕ) : lexLe x y = true ∨ lexLe y x = true := by
  induction x generalizing y with
  | nil => exact Or.inl rfl
  | cons a as ih =>
      cases y with
      | nil => exact Or.inr rfl
      | cons b bs =>
          rcases Nat.lt_trichotomy a b with h | h | h
          · exact Or.inl (by simp [lexLe, h])
          · subst h
            rcases ih bs with h2 | h2
            · exact Or.inl (by simp [lexLe, h2])
            · exact Or.inr (by simp [lexLe, h2])
          · exact Or.inr (by simp [lexLe, h])

theorem lexLe_trans (x y z : List ℕ) (hxy : lexLe x y = true)
    (hyz : lexLe y z = true) : lexLe x z = true := by
  induction x generalizing y z with
  | nil => rfl
  | cons a as ih =>
      cases y with
      | nil => simp [lexLe] at hxy
      | cons b bs =>
          cases z with
          | nil => simp [lexLe] at hyz
          | cons c cs =>
              simp only [lexLe] at hxy hyz ⊢
              rcases Nat.lt_trichotomy a b with hab | hab | hab
              · rcases Nat.lt_trichotomy b c with hbc | hbc | hbc
                · simp [Nat.lt_trans hab hbc]
                · subst hbc; simp [hab]
                · simp [hbc, Nat.lt_asymm hbc] at hyz
              · subst hab
                rcases Nat.lt_trichotomy a c with hac | hac | hac
                · simp [hac]
                · subst hac
                  simp [Nat.lt_irrefl] at hxy hyz ⊢
                  exact ih bs cs hxy hyz
                · simp [hac, Nat.lt_asymm hac] at hyz
              · simp [hab, Nat.lt_asymm hab] at hxy

instance : IsTotal String icelandicLE :=
  ⟨fun a b => lexLe_total (strKey a) (strKey b)⟩

instance : IsTrans String icelandicLE :=
  ⟨fun a b c => lexLe_trans (strKey a) (strKey b) (strKey c)⟩

/-! ## Helper lemmas about the Normalizer -/

theorem mapGet_mapSet_same (m : JSObj (JSObj JSNum)) (n i : String) (v : JSNum) :
    mapGet (mapSet m n i v) n i = some v := by
  unfold mapGet mapSet
  rw [objGet_objSet_same]
  simp [objGet_objSet_same]

theorem processRow_screens (st : Canon) (iso : String) (rec : RawRow) :
    (processRow st iso rec).screens =
      if rowName rec = "" then st.screens
      else firstSeenStep st.screens (rowName rec) := by
  unfold processRow firstSeenStep
  by_cases h : rowName rec = ""
  · simp [h]
  · by_cases hn : jsIsNaN (jsToNumber rec.fill_rate) <;>
      simp only [h, hn, if_false, if_true, Bool.not_eq_true] <;>
        (first | (split <;> rfl) | (by_cases hm : rowName rec ∈ st.screens <;> simp [hm]))

theorem foldl_processRow_screens (rows : List RawRow) (iso : String) (st : Canon) :
    (rows.foldl (fun s rec => processRow s iso rec) st).screens =
      ((rows.map rowName).filter (fun n => ¬ n = "")).foldl firstSeenStep
        st.screens := by
  induction rows generalizing st with
  | nil => rfl
  | cons r rest ih =>
      simp only [List.foldl_cons, List.map_cons]
      by_cases h : rowName r = ""
      · simp only [List.filter_cons, h]
        rw [ih]
        simp [processRow_screens, h]
      · simp only [List.filter_cons, h]
        rw [ih]
        simp [processRow_screens, h, List.foldl_cons]

theorem processDay_screens (st : Canon) (day : RawDay) :
    (processDay st day).screens = (dayNames day).foldl firstSeenStep st.screens := by
  unfold processDay dayNames
  cases hp : parseDateISO day.date with
  | none => simp
  | some iso => rw [foldl_processRow_screens]

theorem foldl_processDay_screens (days : List RawDay) (st : Canon) :
    (days.foldl processDay st).screens =
      ((days.map dayNames).flatten).foldl firstSeenStep st.screens := by
  induction days generalizing st with
  | nil => rfl
  | cons d rest ih =>
      simp only [List.foldl_cons, List.map_cons, List.flatten_cons, List.foldl_append]
      rw [ih, processDay_screens]

theorem normalizeFeed_screens (feed : RawFeed) :
    (normalizeFeed feed).screens = firstSeen (feedNames feed) := by
  unfold normalizeFeed firstSeen feedNames
  rw [foldl_processDay_screens]

theorem firstSeenStep_nodup (acc : List String) (n : String) (h : acc.Nodup) :
    (firstSeenStep acc n).Nodup := by
  unfold firstSeenStep
  by_cases hm : n ∈ acc
  · simp [hm, h]
  · simp [hm, h, List.nodup_append]

theorem foldl_firstSeenStep_nodup (l : List String) (acc : List String)
    (h : acc.Nodup) : (l.foldl firstSeenStep acc).Nodup := by
  induction l generalizing acc with
  | nil => exact h
  | cons x xs ih => exact ih _ (firstSeenStep_nodup acc x h)

theorem normalizeFeed_screens_nodup (feed : RawFeed) :
    (normalizeFeed feed).screens.Nodup := by
  rw [normalizeFeed_screens]
  exact foldl_firstSeenStep_nodup _ _ List.nodup_nil

/-! ## Claim C1: value retention in `map` -/

/-- C1, counterexample: the claim says a value is retained in `map` only
if it parses as a *finite* number, but the code only drops `NaN`
coercions: the value `"Infinity"` is retained as `+Infinity`, which is
not finite. -/
theorem infinity_value_retained :
    mapGet (normalizeFeed infinityFeed).map "A" "2024-03-01" = some .posInf ∧
    jsIsFinite .posInf = false :=
  ⟨by decide, rfl⟩

/-- C1 as amended: for every row processed by the Normalizer (with a
non-empty trimmed name), the row's value is retained in `map` exactly
when `Number(fill_rate)` is not `NaN` — finite or infinite — and then the
stored value is that coercion; a `NaN`-coercing value leaves the
`(screen, date)` entry of `map` unchanged, so if it was absent it stays
absent. -/
theorem row_value_retention (st : Canon) (iso : String) (rec : RawRow)
    (h : rowName rec ≠ "") :
    mapGet (processRow st iso rec).map (rowName rec) iso =
      if jsIsNaN (jsToNumber rec.fill_rate) then mapGet st.map (rowName rec) iso
      else some (jsToNumber rec.fill_rate) := by
  unfold processRow
  by_cases hn : jsIsNaN (jsToNumber rec.fill_rate) <;>
    by_cases hm : rowName rec ∈ st.screens <;>
      simp [h, hn, hm, mapGet_mapSet_same]

/-- C1 witness: a non-numeric value (`"bad"`) is dropped, leaving the
pair absent from the empty map. -/
theorem row_value_retention_witness :
    mapGet (processRow emptyCanon "2024-03-01" badValueRow).map
      (rowName badValueRow) "2024-03-01" = none := by
  rw [row_value_retention emptyCanon "2024-03-01" badValueRow (by decide)]
  rfl

/-! ## Claim C5: an unparsable date skips the whole day-record -/

/-- C5: a day-record whose date does not parse contributes nothing to the
Canonical Snapshot Set — deleting it from the feed gives the identical
result (no date, no screens, no map entries), whatever its rows hold. -/
theorem unparsable_date_skips_day (g : Option String)
    (pre post : List RawDay) (day : RawDay)
    (h : parseDateISO day.date = none) :
    normalizeFeed { result := pre ++ day :: post, generated_at := g } =
      normalizeFeed { result := pre ++ post, generated_at := g } := by
  have hskip : ∀ st : Canon, processDay st day = st := by
    intro st
    simp [processDay, h]
  unfold normalizeFeed
  simp only [List.foldl_append, List.foldl_cons, hskip]

/-- C5 witness: a concrete feed whose middle day-record has garbage for a
date and two well-formed rows normalizes as if that day were absent. -/
theorem unparsable_date_skips_day_witness :
    normalizeFeed
      { result :=
          [{ date := "2024-03-01",
             rows := some [{ du_name := some "A",
                             fill_rate := .num (.finite (1/2)) }] },
           { date := "soon",
             rows := some [{ du_name := some "B",
                             fill_rate := .num (.finite (1/4)) },
                           { du_name := some "C",
                             fill_rate := .num (.finite (3/4)) }] }],
        generated_at := none } =
      normalizeFeed
        { result :=
            [{ date := "2024-03-01",
               rows := some [{ du_name := some "A",
                               fill_rate := .num (.finite (1/2)) }] }],
          generated_at := none } := by
  exact unparsable_date_skips_day none
    [{ date := "2024-03-01",
       rows := some [{ du_name := some "A",
                       fill_rate := .num (.finite (1/2)) }] }]
    []
    { date := "soon",
      rows := some [{ du_name := some "B", fill_rate := .num (.finite (1/4)) },
                    { du_name := some "C", fill_rate := .num (.finite (3/4)) }] }
    (by decide)

/-! ## Claim C8: the fetch fallback chain -/

theorem getJSONGo_all_fail (l : List (String × FetchOutcome))
    (errs : List String) (h : ∀ p ∈ l, attemptFailed p.2 = true) :
    getJSONGo l errs =
      .error ("All sources failed: " ++ String.intercalate " | "
        (errs ++ l.map (fun p => attemptErrMsg p.1 p.2))) := by
  induction l generalizing errs with
  | nil => simp [getJSONGo]
  | cons p rest ih =>
      obtain ⟨u, o⟩ := p
      cases ha : attemptResult o with
      | ok b =>
          have := h (u, o) (List.mem_cons_self _ _)
          simp [attemptFailed, ha] at this
      | error m =>
          simp only [getJSONGo, ha]
          rw [ih (errs ++ [u ++ ": " ++ m])
            (fun q hq => h q (List.mem_cons_of_mem _ hq))]
          simp [attemptErrMsg, ha, List.append_assoc]

theorem getJSONGo_first_success (pre : List (String × FetchOutcome))
    (u : String) (o : FetchOutcome) (post : List (String × FetchOutcome))
    (b : RawInput) (errs : List String)
    (hpre : ∀ p ∈ pre, attemptFailed p.2 = true)
    (hok : attemptResult o = .ok b) :
    getJSONGo (pre ++ (u, o) :: post) errs = .ok b := by
  induction pre generalizing errs with
  | nil => simp [getJSONGo, hok]
  | cons p rest ih =>
      obtain ⟨u', o'⟩ := p
      cases ha : attemptResult o' with
      | ok c =>
          have := hpre (u', o') (List.mem_cons_self _ _)
          simp [attemptFailed, ha] at this
      | error m =>
          simp only [List.cons_append, getJSONGo, ha]
          exact ih _ (fun q hq => hpre q (List.mem_cons_of_mem _ hq))

/-- C8: (i) a non-2xx status fails the attempt with reason `HTTP status`;
(ii) a transport error fails it with the transport message; (iii) the
first candidate whose attempt succeeds determines the returned parsed
body, regardless of later candidates; (iv) when every candidate fails,
the result is a single aggregate error listing each candidate with its
failure reason, in attempt order. -/
theorem getJSON_fallback_chain :
    (∀ (status : ℕ) (body : Except String RawInput),
        ¬ (200 ≤ status ∧ status ≤ 299) →
        attemptResult (.response status body) =
          .error ("HTTP " ++ toString status)) ∧
    (∀ m : String, attemptResult (.transportError m) = .error m) ∧
    (∀ (pre : List (String × FetchOutcome)) (u : String) (o : FetchOutcome)
        (post : List (String × FetchOutcome)) (b : RawInput),
        (∀ p ∈ pre, attemptFailed p.2 = true) → attemptResult o = .ok b →
        getJSON (pre ++ (u, o) :: post) = .ok b) ∧
    (∀ l : List (String × FetchOutcome),
        (∀ p ∈ l, attemptFailed p.2 = true) →
        getJSON l = .error ("All sources failed: " ++
          String.intercalate " | " (l.map (fun p => attemptErrMsg p.1 p.2)))) := by
  refine ⟨?_, ?_, ?_, ?_⟩
  · intro status body h
    simp [attemptResult, h]
  · intro m
    rfl
  · intro pre u o post b hpre hok
    exact getJSONGo_first_success pre u o post b [] hpre hok
  · intro l h
    unfold getJSON
    rw [getJSONGo_all_fail l [] h]
    rfl

/-- C8 witness: with `[X, Y]` where X returns HTTP 500 and Y a valid
body, the client returns Y's parsed body; and when X errors out and Y
answers 404, the aggregate error lists both reasons in order. -/
theorem getJSON_fallback_chain_witness :
    getJSON [("X", .response 500 (.error "ignored")),
             ("Y", .response 200 (.ok (.wellFormed feedY)))] =
      .ok (.wellFormed feedY) ∧
    getJSON [("X", .transportError "boom"),
             ("Y", .response 404 (.ok .badShape))] =
      .error "All sources failed: X: boom | Y: HTTP 404" := by
  constructor
  · exact getJSON_fallback_chain.2.2.1
      [("X", .response 500 (.error "ignored"))] "Y"
      (.response 200 (.ok (.wellFormed feedY))) [] (.wellFormed feedY)
      (by decide) rfl
  · have h := getJSON_fallback_chain.2.2.2
      [("X", .transportError "boom"), ("Y", .response 404 (.ok .badShape))]
      (by decide)
    rw [h]
    rfl

/-! ## Claims C2, C3, C10: the Archive Writer -/

theorem isSome_objGet_objSet {V : Type} (o : JSObj V) (k k' : String) (v : V)
    (h : (objGet o k).isSome) : (objGet (objSet o k' v) k).isSome := by
  by_cases hk : k' = k
  · subst hk
    simp [objGet_objSet_same]
  · rw [objGet_objSet_other _ _ _ _ hk]
    exact h

theorem isSome_objGet_objSet_objSet {V : Type} (o : JSObj V)
    (k k2 : String) (v v2 : V) :
    (objGet (objSet (objSet o k v) k2 v2) k).isSome := by
  apply isSome_objGet_objSet
  simp [objGet_objSet_same]

theorem outJsonPath_ne_outCsvPath (t : RunDate) :
    outJsonPath t ≠ outCsvPath t := by
  intro h
  have hlen := congrArg String.length h
  have h5 : (".json" : String).length = 5 := rfl
  have h4 : (".csv" : String).length = 4 := rfl
  unfold outJsonPath outCsvPath at hlen
  simp only [String.length_append, h5, h4] at hlen
  omega

/-- The idempotence guard: a present JSON artifact short-circuits the run
successfully with the file system untouched. -/
theorem mainRun_noop (env : MainEnv) (t : RunDate) (fs : FS)
    (h : (objGet fs (outJsonPath t)).isSome = true) :
    mainRun env t fs = (.ok (), fs) := by
  unfold mainRun
  simp [h]

/-- A successful run always leaves the JSON artifact present. -/
theorem mainRun_ok_json_present (env : MainEnv) (t : RunDate) (fs : FS)
    (h : (mainRun env t fs).1 = .ok ()) :
    (objGet (mainRun env t fs).2 (outJsonPath t)).isSome := by
  by_cases h0 : (objGet fs (outJsonPath t)).isSome = true
  · rw [mainRun_noop env t fs h0]
    exact h0
  · unfold mainRun at h ⊢
    simp only [h0, if_false] at h ⊢
    cases hg : getJSON env.fetches with
    | error e => simp [hg] at h
    | ok raw =>
        simp only [hg] at h ⊢
        cases hn : normalize raw with
        | error e => simp [hn] at h
        | ok norm =>
            simp only [hn] at h ⊢
            by_cases hm : env.mkdirFails = true
            · simp [hm] at h
            · simp only [hm, if_false] at h ⊢
              by_cases hw : env.jsonWriteFails = true
              · simp [hw] at h
              · simp only [hw, if_false] at h ⊢
                by_cases hc : env.csvWriteFails = true
                · simp [hc] at h
                · simp only [hc, if_false]
                  exact isSome_objGet_objSet_objSet fs _ _ _ _

/-- C2: if the JSON artifact for the target date already exists, the run
terminates successfully and the file system is returned unchanged (no
write to either artifact); consequently, after any successful run a
second invocation for the same date — under any environment — performs
zero writes and leaves both artifacts byte-identical to the first run's
output. -/
theorem archive_idempotence (env env2 : MainEnv) (t : RunDate) (fs : FS) :
    ((objGet fs (outJsonPath t)).isSome = true →
      mainRun env t fs = (.ok (), fs)) ∧
    ((mainRun env t fs).1 = .ok () →
      mainRun env2 t (mainRun env t fs).2 = (.ok (), (mainRun env t fs).2)) :=
  ⟨mainRun_noop env t fs,
   fun h => mainRun_noop env2 t _ (mainRun_ok_json_present env t fs h)⟩

/-- C2 witness: after a successful run on an empty file system, rerunning
for the same date (even with a broken environment) returns success and
the identical file system. -/
theorem archive_idempotence_witness :
    mainRun c2Env2 c2Date (mainRun c2Env c2Date []).2 =
      (.ok (), (mainRun c2Env c2Date []).2) :=
  (archive_idempotence c2Env c2Env2 c2Date []).2 rfl

/-- C3: under fresh artifact paths, any failing run exits with status 1,
never leaves a CSV artifact, and leaves either the file system untouched
(failure before the JSON write completed) or exactly the JSON artifact
written with the CSV write having failed — the JSON write fully completes
before the CSV write begins, and no CSV-without-JSON state is possible. -/
theorem archive_failure_semantics (env : MainEnv) (t : RunDate) (fs : FS)
    (hJ : objGet fs (outJsonPath t) = none)
    (hC : objGet fs (outCsvPath t) = none) (e : String)
    (herr : (mainRun env t fs).1 = .error e) :
    exitCode (mainRun env t fs).1 = 1 ∧
    objGet (mainRun env t fs).2 (outCsvPath t) = none ∧
    ((mainRun env t fs).2 = fs ∨
      (env.csvWriteFails = true ∧ ∃ p : Payload,
        (mainRun env t fs).2 = objSet fs (outJsonPath t) (.jsonData p))) := by
  have h0 : (objGet fs (outJsonPath t)).isSome = false := by
    simp [hJ]
  refine ⟨by rw [herr]; rfl, ?_⟩
  cases hg : getJSON env.fetches with
  | error e' =>
      have hrun : mainRun env t fs = (.error e', fs) := by
        unfold mainRun
        simp [h0, hg]
      rw [hrun]
      exact ⟨hC, Or.inl rfl⟩
  | ok raw =>
      cases hn : normalize raw with
      | error e' =>
          have hrun : mainRun env t fs = (.error e', fs) := by
            unfold mainRun
            simp [h0, hg, hn]
          rw [hrun]
          exact ⟨hC, Or.inl rfl⟩
      | ok norm =>
          by_cases hm : env.mkdirFails = true
          · have hrun : mainRun env t fs = (.error "mkdir failed", fs) := by
              unfold mainRun
              simp [h0, hg, hn, hm]
            rw [hrun]
            exact ⟨hC, Or.inl rfl⟩
          · by_cases hw : env.jsonWriteFails = true
            · have hrun : mainRun env t fs = (.error "JSON write failed", fs) := by
                unfold mainRun
                simp [h0, hg, hn, hm, hw]
              rw [hrun]
              exact ⟨hC, Or.inl rfl⟩
            · by_cases hc2 : env.csvWriteFails = true
              · have hrun : mainRun env t fs =
                    (.error "CSV write failed",
                      objSet fs (outJsonPath t) (.jsonData (mkPayload (dateISOOf t)
                        norm (snapshotForDate norm (dateISOOf t))
                        (env.fetches.map (·.1)) env.archivedAt))) := by
                  unfold mainRun
                  simp [h0, hg, hn, hm, hw, hc2]
                rw [hrun]
                refine ⟨?_, Or.inr ⟨hc2, _, rfl⟩⟩
                rw [objGet_objSet_other _ _ _ _ (outJsonPath_ne_outCsvPath t)]
                exact hC
              · have hrun1 : (mainRun env t fs).1 = .ok () := by
                  unfold mainRun
                  simp [h0, hg, hn, hm, hw, hc2]
                rw [herr] at hrun1
                exact absurd hrun1 (by simp)

/-- C3 witness: a run whose CSV write fails exits 1, leaves no CSV, and
left exactly the JSON artifact. -/
theorem archive_failure_semantics_witness :
    exitCode (mainRun c3Env c2Date []).1 = 1 ∧
    objGet (mainRun c3Env c2Date []).2 (outCsvPath c2Date) = none ∧
    ((mainRun c3Env c2Date []).2 = [] ∨
      (c3Env.csvWriteFails = true ∧ ∃ p : Payload,
        (mainRun c3Env c2Date []).2 =
          objSet [] (outJsonPath c2Date) (.jsonData p))) :=
  archive_failure_semantics c3Env c2Date [] rfl rfl "CSV write failed" rfl

/-- C10: when the snapshot for the target date is empty, a run on fresh
paths still writes both artifacts: a JSON record with `count` 0 and an
empty `rows` array, and a CSV holding only the header line plus a
trailing newline. -/
theorem empty_snapshot_artifacts (env : MainEnv) (t : RunDate) (fs : FS)
    (feed : RawFeed)
    (hJ : objGet fs (outJsonPath t) = none)
    (hfetch : getJSON env.fetches = .ok (.wellFormed feed))
    (hempty : snapshotForDate (normalizeFeed feed) (dateISOOf t) = objEmpty)
    (hm : env.mkdirFails = false) (hw : env.jsonWriteFails = false)
    (hc : env.csvWriteFails = false) :
    (mainRun env t fs).1 = .ok () ∧
    objGet (mainRun env t fs).2 (outJsonPath t) =
      some (.jsonData (mkPayload (dateISOOf t) (normalizeFeed feed) objEmpty
        (env.fetches.map (·.1)) env.archivedAt)) ∧
    (mkPayload (dateISOOf t) (normalizeFeed feed) objEmpty
      (env.fetches.map (·.1)) env.archivedAt).count = 0 ∧
    (mkPayload (dateISOOf t) (normalizeFeed feed) objEmpty
      (env.fetches.map (·.1)) env.archivedAt).rows = [] ∧
    objGet (mainRun env t fs).2 (outCsvPath t) =
      some (.textData "date,screen,fill_rate\n") := by
  have h0 : (objGet fs (outJsonPath t)).isSome = false := by
    simp [hJ]
  have hcsv : toCSVRows (dateISOOf t) objEmpty = "date,screen,fill_rate" := rfl
  have hrun : mainRun env t fs =
      (.ok (), objSet (objSet fs (outJsonPath t)
          (.jsonData (mkPayload (dateISOOf t) (normalizeFeed feed) objEmpty
            (env.fetches.map (·.1)) env.archivedAt)))
        (outCsvPath t)
        (.textData (toCSVRows (dateISOOf t) objEmpty ++ "\n"))) := by
    unfold mainRun
    simp [h0, hfetch, normalize, hempty, hm, hw, hc]
  rw [hrun]
  refine ⟨rfl, ?_, rfl, rfl, ?_⟩
  · rw [objGet_objSet_other _ _ _ _ (Ne.symm (outJsonPath_ne_outCsvPath t)),
      objGet_objSet_same]
  · rw [objGet_objSet_same, hcsv]
    rfl

/-- C10 witness: the feed has data only for another day, so the snapshot
for 2024-03-01 is empty; both artifacts are still written, with count 0,
empty rows and a header-only CSV. -/
theorem empty_snapshot_artifacts_witness :
    (mainRun c10Env c2Date []).1 = .ok () ∧
    objGet (mainRun c10Env c2Date []).2 (outJsonPath c2Date) =
      some (.jsonData (mkPayload (dateISOOf c2Date) (normalizeFeed staleFeed)
        objEmpty (c10Env.fetches.map (·.1)) c10Env.archivedAt)) ∧
    (mkPayload (dateISOOf c2Date) (normalizeFeed staleFeed) objEmpty
      (c10Env.fetches.map (·.1)) c10Env.archivedAt).count = 0 ∧
    (mkPayload (dateISOOf c2Date) (normalizeFeed staleFeed) objEmpty
      (c10Env.fetches.map (·.1)) c10Env.archivedAt).rows = [] ∧
    objGet (mainRun c10Env c2Date []).2 (outCsvPath c2Date) =
      some (.textData "date,screen,fill_rate\n") :=
  empty_snapshot_artifacts c10Env c2Date [] staleFeed rfl rfl (by decide)
    rfl rfl rfl

/-! ## Claim C4: the 401 re-login-and-retry policy -/

/-- C4, counterexample: on a second consecutive 401 the code does not
raise a fatal error — `return res.json()` parses and returns the 401
response's body as an ordinary success (it retried exactly once: two
fetches, one re-login). -/
theorem second_401_returns_body :
    direct always401 { cookie := some "session=s0", nFetch := 0, nLogin := 0 } =
      (.ok { data_proposal_items := none, proposal_items := none },
       { cookie := some "session=r0", nFetch := 2, nLogin := 1 }) := rfl

/-- C4 as amended: for an authenticated request (cookie present) that is
answered with a 401, the client performs exactly one re-login and one
retry (two fetches, one additional login in total); the retried request
is never retried again, whatever its status — its body-parse result
(even of a second 401) is returned as the call's result, rather than a
dedicated fatal error being raised. -/
theorem direct_retry_once (w : VendorWorld) (st : VSt) (c c' : String)
    (b1 : Except String ApiResp)
    (hck : st.cookie = some c)
    (h401 : w.fetchEv st.nFetch = .response 401 b1)
    (hlog : w.loginEv st.nLogin = .ok c') :
    direct w st =
      match w.fetchEv (st.nFetch + 1) with
      | .transportError m =>
          (.error m,
           { cookie := some c', nFetch := st.nFetch + 2, nLogin := st.nLogin + 1 })
      | .response _ b2 =>
          (b2,
           { cookie := some c', nFetch := st.nFetch + 2, nLogin := st.nLogin + 1 }) := by
  unfold direct
  unfold directGo
  rw [hck]
  simp only [h401, loginW, hlog]
  unfold directGo
  simp only []
  cases hev : w.fetchEv (st.nFetch + 1) with
  | transportError m => simp [hev]
  | response status b2 => simp [hev]

/-- C4 witness: a 401 then a 500 — one re-login, one retry, and the 500
response's parsed body is returned. -/
theorem direct_retry_once_witness :
    direct c4World { cookie := some "session=t0", nFetch := 0, nLogin := 0 } =
      (.ok { data_proposal_items := none, proposal_items := none },
       { cookie := some "session=t1", nFetch := 2, nLogin := 1 }) := by
  rw [direct_retry_once c4World
    { cookie := some "session=t0", nFetch := 0, nLogin := 0 }
    "session=t0" "session=t1" (.error "unauthorized html") rfl rfl rfl]
  rfl

/-! ## Claim C9: forecast fill rates -/

theorem clamp01_cases (x : JSNum) : clamp01 x = .nan ∨ inUnit (clamp01 x) := by
  cases x with
  | nan => exact Or.inl rfl
  | posInf => exact Or.inr ⟨1, rfl, by norm_num, by norm_num⟩
  | negInf => exact Or.inr ⟨min 1 0, rfl, by norm_num, by norm_num⟩
  | finite q =>
      refine Or.inr ⟨min 1 (max 0 q), rfl, ?_, min_le_left _ _⟩
      exact le_min (by norm_num) (le_max_left _ _)

theorem rowForScreen_shape (w : VendorWorld) (st : VSt) (s : ScreenCfg) :
    ((rowForScreen w st s).1.id = s.id ∧
      (rowForScreen w st s).1.du_name = s.name) ∧
    ((∃ m, (rowForScreen w st s).1.error = some m ∧
        (rowForScreen w st s).1.fill_rate = .finite 0) ∨
      ((rowForScreen w st s).1.error = none ∧
        ∃ x, (rowForScreen w st s).1.fill_rate = clamp01 x)) := by
  rcases hdir : direct w st with ⟨res, st2⟩
  cases res with
  | ok resp =>
      refine ⟨⟨?_, ?_⟩, Or.inr ⟨?_, sumFillPressure (extractItems resp), ?_⟩⟩ <;>
        simp [rowForScreen, getFillForScreen, hdir]
  | error m =>
      refine ⟨⟨?_, ?_⟩, Or.inl ⟨m, ?_, ?_⟩⟩ <;>
        simp [rowForScreen, getFillForScreen, hdir]

/-- C9 as amended: every day-record of the forecast output gets exactly
one row per configured screen, in configuration order; a row produced by
a caught fetch error has `fill_rate` exactly 0 with the error message
recorded; a row from a successful fetch has
`fill_rate = Math.min(1, Math.max(0, sum))` which is either a finite
value in [0,1] or `NaN` (`NaN` arising only when the coerced
`fill_pressure` summands include both infinities). -/
theorem fill_rate_bounds (w : VendorWorld) (scrs : List ScreenCfg) (st : VSt) :
    ((runDayRows w scrs st).1.map (fun r => (r.id, r.du_name)) =
      scrs.map (fun s => (s.id, s.name))) ∧
    (∀ r ∈ (runDayRows w scrs st).1,
      (∃ m, r.error = some m ∧ r.fill_rate = .finite 0) ∨
      (r.error = none ∧ (r.fill_rate = .nan ∨ inUnit r.fill_rate))) := by
  induction scrs generalizing st with
  | nil =>
      exact ⟨rfl, by intro r hr; cases hr⟩
  | cons s rest ih =>
      rcases hr : rowForScreen w st s with ⟨row, st1⟩
      have hd : runDayRows w (s :: rest) st =
          (row :: (runDayRows w rest st1).1, (runDayRows w rest st1).2) := by
        simp [runDayRows, hr]
      obtain ⟨ih1, ih2⟩ := ih st1
      obtain ⟨⟨hid0, hnm0⟩, hshape0⟩ := rowForScreen_shape w st s
      rw [hr] at hid0 hnm0 hshape0
      have hid : row.id = s.id := hid0
      have hnm : row.du_name = s.name := hnm0
      have hshape : (∃ m, row.error = some m ∧ row.fill_rate = .finite 0) ∨
          (row.error = none ∧ ∃ x, row.fill_rate = clamp01 x) := hshape0
      constructor
      · rw [hd]
        simp only [List.map_cons, ih1, hid, hnm]
      · intro r hrm
        rw [hd] at hrm
        rcases List.mem_cons.mp hrm with hcase | hm
        · subst hcase
          rcases hshape with h | ⟨hne, x, hx⟩
          · exact Or.inl h
          · refine Or.inr ⟨hne, ?_⟩
            rw [hx]
            exact clamp01_cases x
        · exact ih2 r hm

/-- C9, counterexample: on a successful fetch whose `fill_pressure`
coercions are `+Infinity` and `-Infinity`, the sum is `NaN`, the clamp
propagates it, and the written row has `fill_rate = NaN` — not a value in
[0,1] — with no error recorded. -/
theorem fill_rate_nan_possible :
    (rowForScreen c9World { cookie := some "session=z", nFetch := 0, nLogin := 0 }
        { id := 1, name := "S" }).1 =
      { id := 1, du_name := "S", fill_rate := .nan, rows_seen := some 2,
        error := none } ∧
    ¬ inUnit .nan := by
  constructor
  · rfl
  · rintro ⟨q, hq, -, -⟩
    cases hq

/-- C9 witness: with two screens configured and the first fetch failing
in transport, the day-record has one row per screen in order, and the
first row — hit by the error — carries `fill_rate` 0 with the error
message. -/
theorem fill_rate_bounds_witness :
    ((runDayRows c9MixedWorld c9Screens c9Start).1.map
        (fun r => (r.id, r.du_name)) = [(7, "A"), (8, "B")]) ∧
    ((∃ m, c9FirstRow.error = some m ∧ c9FirstRow.fill_rate = .finite 0) ∨
      (c9FirstRow.error = none ∧
        (c9FirstRow.fill_rate = .nan ∨ inUnit c9FirstRow.fill_rate))) :=
  ⟨(fill_rate_bounds c9MixedWorld c9Screens c9Start).1,
   (fill_rate_bounds c9MixedWorld c9Screens c9Start).2 c9FirstRow
     (List.mem_cons_self _ _)⟩

/-! ## Claim C7: JSON vs CSV ordering -/

theorem objGet_eq_none_iff {V : Type} (o : JSObj V) (k : String) :
    objGet o k = none ↔ k ∉ o.map (·.1) := by
  induction o with
  | nil => simp [objGet]
  | cons p rest ih =>
      by_cases h : p.1 = k
      · simp [objGet, h]
      · have h' : ¬ (k = p.1) := fun he => h he.symm
        simp [objGet, h, ih, h']

theorem snapshot_fold_keys (norm : Canon) (iso : String) :
    ∀ (screens : List String) (acc : JSObj JSNum),
      screens.Nodup → (∀ s ∈ screens, s ∉ acc.map (·.1)) →
      (screens.foldl (fun out s =>
          match mapGet norm.map s iso with
          | some v => objSet out s v
          | none => out) acc).map (·.1) =
        acc.map (·.1) ++
          screens.filter (fun s => (mapGet norm.map s iso).isSome) := by
  intro screens
  induction screens with
  | nil =>
      intro acc _ _
      simp
  | cons s rest ih =>
      intro acc hnd hdisj
      simp only [List.foldl_cons]
      cases hm : mapGet norm.map s iso with
      | none =>
          rw [ih acc hnd.of_cons (fun x hx => hdisj x (List.mem_cons_of_mem _ hx))]
          simp [List.filter_cons, hm]
      | some v =>
          have hget : objGet acc s = none :=
            (objGet_eq_none_iff acc s).mpr (hdisj s (List.mem_cons_self _ _))
          have hkeys : (objSet acc s v).map (·.1) = acc.map (·.1) ++ [s] := by
            rw [objSet_keys, hget]
            simp
          have hdisj2 : ∀ x ∈ rest, x ∉ (objSet acc s v).map (·.1) := by
            intro x hx
            rw [hkeys]
            simp only [List.mem_append, List.mem_singleton]
            rintro (hxa | rfl)
            · exact hdisj x (List.mem_cons_of_mem _ hx) hxa
            · exact (List.nodup_cons.mp hnd).1 hx
          rw [ih (objSet acc s v) hnd.of_cons hdisj2, hkeys]
          simp [List.filter_cons, hm, List.append_assoc]

theorem snapshotForDate_keys (norm : Canon) (iso : String)
    (h : norm.screens.Nodup) :
    (snapshotForDate norm iso).map (·.1) =
      norm.screens.filter (fun s => (mapGet norm.map s iso).isSome) := by
  have hfold := snapshot_fold_keys norm iso norm.screens objEmpty h
    (by intro s _ hs; cases hs)
  simpa [snapshotForDate, objEmpty] using hfold

theorem filterMap_objGet_self {V : Type} (o : JSObj V)
    (h : (o.map (·.1)).Nodup) :
    (o.map (·.1)).filterMap (fun k => (objGet o k).map ((k, ·))) = o := by
  induction o with
  | nil => simp
  | cons p rest ih =>
      obtain ⟨k, v⟩ := p
      simp only [List.map_cons] at h ⊢
      obtain ⟨hk, hrest⟩ := List.nodup_cons.mp h
      have hhead : objGet ((k, v) :: rest) k = some v := by
        simp [objGet]
      have hcong : (rest.map (·.1)).filterMap
            (fun k' => (objGet ((k, v) :: rest) k').map ((k', ·))) =
          (rest.map (·.1)).filterMap (fun k' => (objGet rest k').map ((k', ·))) := by
        apply List.filterMap_congr
        intro x hx
        have hne : ¬ k = x := fun he => hk (he ▸ hx)
        simp [objGet, hne]
      simp only [List.filterMap_cons, hhead]
      show (k, v) :: (rest.map (·.1)).filterMap
          (fun k' => (objGet ((k, v) :: rest) k').map ((k', ·))) = (k, v) :: rest
      rw [hcong, ih hrest]

theorem objEntries_eq_self {V : Type} (o : JSObj V)
    (h : (o.map (·.1)).Nodup)
    (hidx : ∀ k ∈ o.map (·.1), isArrayIndex k = false) :
    objEntries o = o := by
  have h1 : (o.map (·.1)).filter isArrayIndex = [] := by
    rw [List.filter_eq_nil_iff]
    intro a ha
    simp [hidx a ha]
  have h2 : (o.map (·.1)).filter (fun k => !(isArrayIndex k)) = o.map (·.1) := by
    rw [List.filter_eq_self]
    intro a ha
    simp [hidx a ha]
  have hkeys : objKeys o = o.map (·.1) := by
    show (((o.map (·.1)).filter isArrayIndex).insertionSort
          (fun a b => arrayIndexLE a b)
        ++ (o.map (·.1)).filter (fun k => !(isArrayIndex k))) = o.map (·.1)
    rw [h1, h2]
    rfl
  unfold objEntries
  rw [hkeys]
  exact filterMap_objGet_self o h

/-- The JSON artifact's rows are the screens present at the target date in
canonical first-seen order, provided no screen name is an array-index
string. -/
theorem json_rows_first_seen (feed : RawFeed) (iso : String)
    (urls : List String) (ts : String)
    (hidx : ∀ s ∈ (normalizeFeed feed).screens, isArrayIndex s = false) :
    (mkPayload iso (normalizeFeed feed)
        (snapshotForDate (normalizeFeed feed) iso) urls ts).rows.map (·.1) =
      (normalizeFeed feed).screens.filter
        (fun s => (mapGet (normalizeFeed feed).map s iso).isSome) := by
  have hnd := normalizeFeed_screens_nodup feed
  have hkeys := snapshotForDate_keys (normalizeFeed feed) iso hnd
  have hnd2 : ((snapshotForDate (normalizeFeed feed) iso).map (·.1)).Nodup := by
    rw [hkeys]
    exact hnd.filter _
  have hidx2 : ∀ k ∈ (snapshotForDate (normalizeFeed feed) iso).map (·.1),
      isArrayIndex k = false := by
    intro k hk
    rw [hkeys] at hk
    exact hidx k (List.mem_of_mem_filter hk)
  show (objEntries (snapshotForDate (normalizeFeed feed) iso)).map (·.1) = _
  rw [objEntries_eq_self _ hnd2 hidx2, hkeys]

/-- C7 as amended: the JSON artifact's `rows` lists the screens present
for the target date in canonical first-seen order provided no screen name
is a canonical array-index string (integer-like keys are hoisted first by
JS object key ordering); the CSV lists one row per screen sorted by the
Icelandic-collation comparator; and on the example screens first-seen as
[Zeta, Alpha, Miðbær], the JSON preserves that order while the CSV orders
them [Alpha, Miðbær, Zeta]. -/
theorem json_csv_ordering (feed : RawFeed) (iso : String)
    (urls : List String) (ts : String)
    (hidx : ∀ s ∈ (normalizeFeed feed).screens, isArrayIndex s = false) :
    ((mkPayload iso (normalizeFeed feed)
        (snapshotForDate (normalizeFeed feed) iso) urls ts).rows.map (·.1) =
      (normalizeFeed feed).screens.filter
        (fun s => (mapGet (normalizeFeed feed).map s iso).isSome)) ∧
    (∀ obj : JSObj JSNum, List.Sorted icelandicLE (csvSortedScreens obj) ∧
      (csvSortedScreens obj).Perm (objKeys obj)) ∧
    (objEntries exampleSnap).map (·.1) = ["Zeta", "Alpha", "Miðbær"] ∧
    csvSortedScreens exampleSnap = ["Alpha", "Miðbær", "Zeta"] := by
  refine ⟨json_rows_first_seen feed iso urls ts hidx, ?_, by decide, by decide⟩
  intro obj
  exact ⟨List.sorted_insertionSort icelandicLE (objKeys obj),
    List.perm_insertionSort icelandicLE (objKeys obj)⟩

/-- C7 witness: on the example feed — no array-index names — the JSON
rows are exactly the screens in first-seen order. -/
theorem json_csv_ordering_witness :
    (mkPayload "2024-03-01" (normalizeFeed c7feedOk)
        (snapshotForDate (normalizeFeed c7feedOk) "2024-03-01") [] "ts").rows.map
      (·.1) =
      (normalizeFeed c7feedOk).screens.filter
        (fun s =>
          (mapGet (normalizeFeed c7feedOk).map s "2024-03-01").isSome) :=
  (json_csv_ordering c7feedOk "2024-03-01" [] "ts" (by decide)).1

/-- C7, counterexample: with screens first-seen as [Alpha, 7] (both with
values for the target date), the JSON artifact's rows come out as
[7, Alpha] — `Object.entries` hoists integer-like keys — not the
canonical first-seen order the claim states for every archived
snapshot. -/
theorem numeric_screen_reorders_json_rows :
    (normalizeFeed c7feedIdx).screens = ["Alpha", "7"] ∧
    (mkPayload "2024-03-01" (normalizeFeed c7feedIdx)
        (snapshotForDate (normalizeFeed c7feedIdx) "2024-03-01") [] "ts").rows.map
      (·.1) = ["7", "Alpha"] :=
  ⟨by decide, by decide⟩

/-! ## Claim C6: `screens` is distinct names in first-seen order -/

/-- C6: for every raw feed, the `screens` of the Canonical Snapshot Set
is exactly the spec-side first-seen deduplication of the (valid-day,
non-empty) screen names in traversal order, and its entries are
pairwise distinct. -/
theorem screens_first_seen_order (feed : RawFeed) :
    (normalizeFeed feed).screens = firstSeen (feedNames feed) ∧
    (normalizeFeed feed).screens.Nodup :=
  ⟨normalizeFeed_screens feed, normalizeFeed_screens_nodup feed⟩

end FillRate
